import Mathlib

/-!
# News-bot pipeline: a shallow embedding with verified properties

This file embeds the core data flow of the news-intelligence pipeline
(`backend/app/services`) in Lean and settles the specification claims
about it.  Machine floats of the source are modelled by exact rationals,
timestamps by integers (seconds), and database tables by lists of rows.
Each definition mirrors one Python function and is named after it.
-/

namespace NewsBot

/-! ## Scoring (`services/scoring/service.py`) -/

/-- Clamp to the unit interval, the `max(0.0, min(1.0, x))` idiom of the
scorer. -/
def clip01 (x : ℚ) : ℚ := max 0 (min 1 x)

/-- `ScoringService.WEIGHTS["relevance"]`. -/
def weightRelevance : ℚ := 40 / 100

/-- `ScoringService.WEIGHTS["velocity"]`. -/
def weightVelocity : ℚ := 20 / 100

/-- `ScoringService.WEIGHTS["cross_source"]`. -/
def weightCrossSource : ℚ := 20 / 100

/-- `ScoringService.WEIGHTS["novelty"]`. -/
def weightNovelty : ℚ := 20 / 100

/-- The source-specific fields of `RawItem.raw_payload` read by the
scorer: presence of `hn_id` / `reddit_id`, and the optional `score` and
`upvote_ratio` values (`payload.get` defaults are applied at use sites). -/
structure RawPayload where
  hasHnId : Bool
  hasRedditId : Bool
  score : Option ℚ
  upvoteRatio : Option ℚ
deriving Repr, DecidableEq

/-- `ScoringService._compute_relevance_heuristic`: base score from the
credibility tier, +0.1 when the body is longer than 200 characters
(an absent or empty body is falsy in the source), −0.1 for titles under
20 characters, clamped. -/
def computeRelevanceHeuristic (credibilityTier : ℚ) (rawText : Option String)
    (title : String) : ℚ :=
  let score := credibilityTier / 5
  let score :=
    match rawText with
    | some t => if 200 < t.length then score + 1 / 10 else score
    | none => score
  let score := if title.length < 20 then score - 1 / 10 else score
  clip01 score

/-- `ScoringService._compute_relevance_ai` final step: the 0–10 LLM score
divided by 10 and clamped. -/
def computeRelevanceAi (aiScore : ℚ) : ℚ := clip01 (aiScore / 10)

/-- `ScoringService._compute_relevance`: LLM path when an AI result is
available, heuristic fallback otherwise (no client, disabled, or failure). -/
def computeRelevance (aiScore : Option ℚ) (credibilityTier : ℚ)
    (rawText : Option String) (title : String) : ℚ :=
  match aiScore with
  | some s => computeRelevanceAi s
  | none => computeRelevanceHeuristic credibilityTier rawText title

/-- `ScoringService._compute_velocity`: base 0.5, HN items use
`min(1, score/200)`, Reddit items use `min(1, score/500 · upvote_ratio)`,
final clamp to `[0, 1]`. -/
def computeVelocity (payload : RawPayload) : ℚ :=
  let score : ℚ := 1 / 2
  let score :=
    if payload.hasHnId then min 1 (payload.score.getD 0 / 200) else score
  let score :=
    if payload.hasRedditId then
      min 1 (payload.score.getD 0 / 500 * payload.upvoteRatio.getD (1 / 2))
    else score
  max 0 (min 1 score)

/-- `ScoringService._compute_cross_source` band function over the size of
the item's cluster (size defaults to 1 when the item is in no cluster). -/
def computeCrossSource (clusterSize : ℕ) : ℚ :=
  if 3 ≤ clusterSize then 1
  else if clusterSize = 2 then 7 / 10
  else 3 / 10

/-- `ScoringService._compute_novelty`: recency bands over the age in hours
of `published_at` when present, else of `fetched_at`. -/
def computeNovelty (publishedAgeHours : Option ℚ) (fetchedAgeHours : ℚ) : ℚ :=
  match publishedAgeHours with
  | some age =>
      if age < 6 then 9 / 10
      else if age < 24 then 7 / 10
      else if age < 72 then 5 / 10
      else 3 / 10
  | none =>
      if fetchedAgeHours < 6 then 8 / 10
      else if fetchedAgeHours < 24 then 6 / 10
      else 4 / 10

/-- Everything `ScoringService._score_item` reads about one item. -/
structure ScoreInput where
  aiScore : Option ℚ
  credibilityTier : ℚ
  rawText : Option String
  title : String
  payload : RawPayload
  clusterSize : ℕ
  publishedAgeHours : Option ℚ
  fetchedAgeHours : ℚ

/-- One `ItemScore` row as the scorer creates it. -/
structure ItemScoreRec where
  relevance : ℚ
  velocity : ℚ
  crossSource : ℚ
  novelty : ℚ
  signal : ℚ
deriving Repr, DecidableEq

/-- `ScoringService._score_item`: the four component scores and the
weighted signal score. -/
def scoreItem (inp : ScoreInput) : ItemScoreRec :=
  let relevance :=
    computeRelevance inp.aiScore inp.credibilityTier inp.rawText inp.title
  let velocity := computeVelocity inp.payload
  let crossSource := computeCrossSource inp.clusterSize
  let novelty := computeNovelty inp.publishedAgeHours inp.fetchedAgeHours
  { relevance := relevance
    velocity := velocity
    crossSource := crossSource
    novelty := novelty
    signal := weightRelevance * relevance + weightVelocity * velocity +
      weightCrossSource * crossSource + weightNovelty * novelty }

theorem clip01_nonneg (x : ℚ) : 0 ≤ clip01 x := le_max_left 0 _

theorem clip01_le_one (x : ℚ) : clip01 x ≤ 1 :=
  max_le zero_le_one (min_le_left 1 x)

theorem computeRelevance_mem (a : Option ℚ) (c : ℚ) (r : Option String)
    (t : String) : 0 ≤ computeRelevance a c r t ∧ computeRelevance a c r t ≤ 1 := by
  cases a <;>
    simp only [computeRelevance, computeRelevanceAi, computeRelevanceHeuristic] <;>
    exact ⟨clip01_nonneg _, clip01_le_one _⟩

theorem computeVelocity_mem (p : RawPayload) :
    0 ≤ computeVelocity p ∧ computeVelocity p ≤ 1 := by
  unfold computeVelocity
  refine ⟨le_max_left 0 _, max_le zero_le_one (min_le_left 1 _)⟩

theorem computeCrossSource_mem (n : ℕ) :
    0 ≤ computeCrossSource n ∧ computeCrossSource n ≤ 1 := by
  unfold computeCrossSource
  split <;> [skip; split] <;> norm_num

theorem computeNovelty_mem (p : Option ℚ) (f : ℚ) :
    0 ≤ computeNovelty p f ∧ computeNovelty p f ≤ 1 := by
  unfold computeNovelty
  cases p <;> simp only [] <;> split <;> try split
  all_goals try split
  all_goals norm_num

/-- Body length as the spec sentences for C8 read it: length of the body
when one is present, 0 otherwise. -/
def bodyLength : Option String → ℕ
  | some t => t.length
  | none => 0

/-- The heuristic-relevance formula exactly as claim C8 words it: boost
applies when the body is *at least* 200 characters long.  Kept for
comparison against `computeRelevanceHeuristic`, which is the code. -/
def relevanceHeuristicClaimed (credibilityTier : ℚ) (rawText : Option String)
    (title : String) : ℚ :=
  clip01 (credibilityTier / 5 + (if 200 ≤ bodyLength rawText then 1 / 10 else 0)
    - (if title.length < 20 then 1 / 10 else 0))

/-- The amended formula: the boost applies only when the body is *strictly
longer* than 200 characters, matching the `len(item.raw_text) > 200` test
of the source. -/
def relevanceHeuristicAmended (credibilityTier : ℚ) (rawText : Option String)
    (title : String) : ℚ :=
  clip01 (credibilityTier / 5 + (if 200 < bodyLength rawText then 1 / 10 else 0)
    - (if title.length < 20 then 1 / 10 else 0))

/-- A body of exactly 200 characters. -/
def body200 : String := String.mk (List.replicate 200 'a')

/-- A title of 25 characters. -/
def title25 : String := String.mk (List.replicate 25 't')

theorem body200_length : body200.length = 200 := by
  show (List.replicate 200 'a').length = 200
  rw [List.length_replicate]

theorem title25_length : title25.length = 25 := by
  show (List.replicate 25 't').length = 25
  rw [List.length_replicate]

/-- C3: every ItemScore created by `_score_item` has its four component
scores in `[0, 1]`, and its signal score equals
`0.40·relevance + 0.20·velocity + 0.20·cross_source + 0.20·novelty`
to within `1e-9` (here the weighted sum is exact, so the error is `0`). -/
theorem C3_itemscore_components_bounded_and_signal_weighted (inp : ScoreInput) :
    (0 ≤ (scoreItem inp).relevance ∧ (scoreItem inp).relevance ≤ 1) ∧
    (0 ≤ (scoreItem inp).velocity ∧ (scoreItem inp).velocity ≤ 1) ∧
    (0 ≤ (scoreItem inp).crossSource ∧ (scoreItem inp).crossSource ≤ 1) ∧
    (0 ≤ (scoreItem inp).novelty ∧ (scoreItem inp).novelty ≤ 1) ∧
    |(scoreItem inp).signal -
      (40 / 100 * (scoreItem inp).relevance + 20 / 100 * (scoreItem inp).velocity +
        20 / 100 * (scoreItem inp).crossSource + 20 / 100 * (scoreItem inp).novelty)|
      ≤ 1 / 1000000000 := by
  refine ⟨computeRelevance_mem _ _ _ _, computeVelocity_mem _,
    computeCrossSource_mem _, computeNovelty_mem _ _, ?_⟩
  have h : (scoreItem inp).signal =
      weightRelevance * (scoreItem inp).relevance +
        weightVelocity * (scoreItem inp).velocity +
        weightCrossSource * (scoreItem inp).crossSource +
        weightNovelty * (scoreItem inp).novelty := rfl
  rw [h, weightRelevance, weightVelocity, weightCrossSource, weightNovelty,
    sub_self, abs_zero]
  norm_num

/-- C8 counterexample: with a body of exactly 200 characters
(credibility tier 3, a 25-character title) the code gives relevance
`3/5` — no length boost, since the source tests `len(raw_text) > 200` —
while the claimed "at least 200 characters" formula gives `7/10`. -/
theorem C8_exact_200_char_body_counterexample :
    computeRelevance none 3 (some body200) title25 = 3 / 5 ∧
    relevanceHeuristicClaimed 3 (some body200) title25 = 7 / 10 ∧
    computeRelevance none 3 (some body200) title25 ≠
      relevanceHeuristicClaimed 3 (some body200) title25 := by
  have hb : ¬(200 < body200.length) := by rw [body200_length]; omega
  have hb2 : 200 ≤ bodyLength (some body200) := by
    show 200 ≤ body200.length
    rw [body200_length]
  have ht : ¬(title25.length < 20) := by rw [title25_length]; omega
  refine ⟨?_, ?_, ?_⟩ <;>
    simp only [computeRelevance, computeRelevanceHeuristic,
      relevanceHeuristicClaimed, hb, hb2, ht, if_false, if_true, clip01] <;>
    norm_num [min_def, max_def]

/-- C8 amended: when no LLM is configured (or the LLM call fails), the
relevance score is `credibility_tier / 5`, plus `0.1` when the body is
*strictly longer* than 200 characters, minus `0.1` when the title is
shorter than 20 characters, clipped to `[0, 1]`. -/
theorem C8_heuristic_relevance_amended (credibilityTier : ℚ)
    (rawText : Option String) (title : String) :
    computeRelevance none credibilityTier rawText title =
      relevanceHeuristicAmended credibilityTier rawText title := by
  cases rawText <;>
    simp only [computeRelevance, computeRelevanceHeuristic,
      relevanceHeuristicAmended, bodyLength] <;>
    split <;> try split
  all_goals simp [clip01] <;> ring_nf
  all_goals omega

/-! ## Briefing composition (`services/briefing/service.py`) -/

/-- One joined row of the candidate query of
`BriefingService._get_user_signals`: a `RawItem` with its `ItemScore` and
`Source`. -/
structure SignalRow where
  itemId : ℕ
  fetchedAt : ℤ
  signalScore : ℚ
  sourceCategory : String
deriving Repr, DecidableEq

/-- `BriefingService.__init__`: `self.high_signal_threshold = 0.5`. -/
def briefingHighSignalThreshold : ℚ := 5 / 10

/-- The `Source.category.in_(preferences.topics)` filter, applied only when
the user has preferences with a non-empty topic list (Python truthiness). -/
def topicFilter (topics : Option (List String)) (rows : List SignalRow) :
    List SignalRow :=
  match topics with
  | some ts =>
      if ts.isEmpty then rows
      else rows.filter (fun r => ts.contains r.sourceCategory)
  | none => rows

/-- `BriefingService._get_user_signals`: keep rows fetched in the last
24 hours whose signal score is at least the briefing threshold, apply the
topic filter, order by signal score descending, limit to `2·N`, and keep
the first `N` (`N = BRIEFING_NUM_ITEMS`). -/
def getUserSignals (now : ℤ) (maxItems : ℕ) (topics : Option (List String))
    (rows : List SignalRow) : List SignalRow :=
  let cutoff := now - 24 * 3600
  let base := rows.filter (fun r =>
    decide (cutoff ≤ r.fetchedAt) && decide (briefingHighSignalThreshold ≤ r.signalScore))
  let filtered := topicFilter topics base
  let ordered := filtered.mergeSort (fun a b => decide (b.signalScore ≤ a.signalScore))
  (ordered.take (maxItems * 2)).take maxItems

/-- The outcome of `BriefingService.generate_for_user`: an error dict or a
created briefing id. -/
inductive GenOutcome
  | failure (msg : String)
  | ok (briefingId : ℕ)
deriving Repr, DecidableEq

/-- A `Briefing` row as `generate_for_user` creates it. -/
structure BriefingRow where
  id : ℕ
  scope : String
  summaryMd : String
deriving Repr, DecidableEq

/-- A `BriefingItem` row as `generate_for_user` creates it. -/
structure BriefingItemRow where
  briefingId : ℕ
  rank : ℕ
  rawItemId : ℕ
  signalScore : ℚ
deriving Repr, DecidableEq

/-- The briefing store touched by `generate_for_user`. -/
structure BriefingStore where
  briefings : List BriefingRow
  briefingItems : List BriefingItemRow
  nextBriefingId : ℕ
deriving Repr, DecidableEq

/-- The `BriefingItem` rows linked in `generate_for_user`: one per id in
`items_used`, ranked from 1, with the signal score looked up in the
selected candidate list (defaulting to 0 when the id is unknown). -/
def mkBriefingItems (briefingId : ℕ) (itemsUsed : List ℕ)
    (signals : List SignalRow) : List BriefingItemRow :=
  (List.range itemsUsed.length).zip itemsUsed |>.map fun p =>
    { briefingId := briefingId
      rank := p.1 + 1
      rawItemId := p.2
      signalScore :=
        match signals.find? (fun s => s.itemId = p.2) with
        | some s => s.signalScore
        | none => 0 }

/-- `BriefingService.generate_for_user`, with the user lookup, the
candidate query and the content generation (LLM or fallback) passed in as
data: missing user, an empty candidate list, or failed content generation
return an error before anything is written; otherwise a `Briefing` row and
its `BriefingItem` rows are appended. -/
def generateForUser (userFound : Bool) (now : ℤ) (maxItems : ℕ)
    (topics : Option (List String)) (rows : List SignalRow)
    (content : List SignalRow → Option (String × List ℕ)) (userId : ℕ)
    (store : BriefingStore) : GenOutcome × BriefingStore :=
  if !userFound then (.failure "User not found", store)
  else
    let signals := getUserSignals now maxItems topics rows
    if signals.isEmpty then (.failure "No high-signal items available", store)
    else
      match content signals with
      | none => (.failure "Failed to generate briefing content", store)
      | some (summaryMd, itemsUsed) =>
          let bid := store.nextBriefingId
          (.ok bid,
            { briefings := store.briefings ++
                [{ id := bid, scope := "user:" ++ toString userId, summaryMd := summaryMd }]
              briefingItems := store.briefingItems ++ mkBriefingItems bid itemsUsed signals
              nextBriefingId := bid + 1 })

theorem mem_topicFilter {topics : Option (List String)} {rows : List SignalRow}
    {r : SignalRow} (h : r ∈ topicFilter topics rows) : r ∈ rows := by
  cases topics with
  | none => exact h
  | some ts =>
      by_cases he : ts.isEmpty <;>
        simp only [topicFilter, he, if_true, if_false] at h
      · exact h
      · exact List.mem_of_mem_filter h

theorem mem_getUserSignals {now : ℤ} {maxItems : ℕ}
    {topics : Option (List String)} {rows : List SignalRow} {r : SignalRow}
    (h : r ∈ getUserSignals now maxItems topics rows) :
    r ∈ rows ∧ now - 24 * 3600 ≤ r.fetchedAt ∧
      briefingHighSignalThreshold ≤ r.signalScore := by
  unfold getUserSignals at h
  have h1 := List.mem_of_mem_take (List.mem_of_mem_take h)
  rw [List.mem_mergeSort] at h1
  have h2 := mem_topicFilter h1
  rw [List.mem_filter] at h2
  refine ⟨h2.1, ?_, ?_⟩
  · have := h2.2
    simp only [Bool.and_eq_true, decide_eq_true_eq] at this
    exact this.1
  · have := h2.2
    simp only [Bool.and_eq_true, decide_eq_true_eq] at this
    exact this.2

/-- The candidate row of the C1 counterexample: an item fetched "now" whose
signal score is 0.55. -/
def midSignalRow : SignalRow :=
  { itemId := 1, fetchedAt := 100000, signalScore := 55 / 100,
    sourceCategory := "tech" }

/-- C1 counterexample: the composer's candidate selection keeps an item
whose signal score is 0.55 < 0.6, because `BriefingService` uses the
threshold 0.5, not the 0.6 the claim states. -/
theorem C1_candidate_below_point_six_counterexample :
    getUserSignals 100000 10 none [midSignalRow] = [midSignalRow] ∧
    midSignalRow.signalScore < 6 / 10 := by
  constructor
  · unfold getUserSignals topicFilter
    norm_num [midSignalRow, briefingHighSignalThreshold, List.filter]
  · show (55 : ℚ) / 100 < 6 / 10
    norm_num

/-- C1 amended: every row kept by the composer's candidate selection was
fetched in the last 24 hours and has signal score at least **0.5** (the
threshold `BriefingService` actually configures); the 0.6 threshold of the
claim belongs to the scorer's metrics, not to the composer. -/
theorem C1_candidate_selection_amended (now : ℤ) (maxItems : ℕ)
    (topics : Option (List String)) (rows : List SignalRow) (r : SignalRow)
    (h : r ∈ getUserSignals now maxItems topics rows) :
    now - 24 * 3600 ≤ r.fetchedAt ∧ 5 / 10 ≤ r.signalScore := by
  obtain ⟨-, h2, h3⟩ := mem_getUserSignals h
  exact ⟨h2, h3⟩

theorem C1_candidate_selection_amended_witness :
    (100000 : ℤ) - 24 * 3600 ≤ midSignalRow.fetchedAt ∧
      5 / 10 ≤ midSignalRow.signalScore :=
  C1_candidate_selection_amended 100000 10 none [midSignalRow] midSignalRow
    (by
      unfold getUserSignals topicFilter
      norm_num [midSignalRow, briefingHighSignalThreshold, List.filter])

/-- C10: when the candidate selection yields no qualifying item,
`generate_for_user` returns the "No high-signal items available" error and
the store is unchanged — no `Briefing` row and no `BriefingItem` row is
written, since the error return precedes every write. -/
theorem C10_no_signals_error_store_unchanged (now : ℤ) (maxItems : ℕ)
    (topics : Option (List String)) (rows : List SignalRow)
    (content : List SignalRow → Option (String × List ℕ)) (userId : ℕ)
    (store : BriefingStore)
    (h : getUserSignals now maxItems topics rows = []) :
    generateForUser true now maxItems topics rows content userId store =
      (.failure "No high-signal items available", store) := by
  simp [generateForUser, h]

theorem C10_no_signals_error_store_unchanged_witness :
    generateForUser true 0 10 none [] (fun _ => none) 7
        { briefings := [], briefingItems := [], nextBriefingId := 0 } =
      (.failure "No high-signal items available",
        { briefings := [], briefingItems := [], nextBriefingId := 0 }) :=
  C10_no_signals_error_store_unchanged 0 10 none [] (fun _ => none) 7
    { briefings := [], briefingItems := [], nextBriefingId := 0 }
    (by simp [getUserSignals, topicFilter])

/-! ## Ingestion (`services/ingestion/`) -/

/-- `NormalizedItem` of `ingestion/base.py` (the fields the persistence
step and the claims read). -/
structure NormalizedItem where
  externalId : String
  url : String
  title : String
  rawText : Option String
  publishedAt : Option ℤ
deriving Repr, DecidableEq

/-- The `(source_id, external_id)` identity the ingester deduplicates on. -/
abbrev ItemKey := ℕ × String

/-- The `Source` fields read by `BaseIngester.ingest`. -/
structure SourceRow where
  id : ℕ
  enabled : Bool
deriving Repr, DecidableEq

/-- The per-item loop of `BaseIngester.ingest`: for each fetched item,
insert a `RawItem` only when no row with the same
`(source_id, external_id)` exists (each insert is flushed, so it is
visible to the checks that follow it); returns the stored keys and the
inserted count. -/
def insertLoop (sourceId : ℕ) :
    List ItemKey × ℕ → List NormalizedItem → List ItemKey × ℕ
  | acc, [] => acc
  | (db, inserted), item :: rest =>
      if (sourceId, item.externalId) ∈ db then
        insertLoop sourceId (db, inserted) rest
      else
        insertLoop sourceId (db ++ [(sourceId, item.externalId)], inserted + 1) rest

/-- Outcome of `BaseIngester.ingest`. -/
inductive IngestResult
  | sourceNotFound
  | skippedDisabled
  | completed (itemsFetched itemsInserted : ℕ)
deriving Repr, DecidableEq

/-- `BaseIngester.ingest` with the fetched items passed in: missing source
is an error, a disabled source is skipped, otherwise the insert loop runs
and the result reports fetched and inserted counts. -/
def ingest (source : Option SourceRow) (items : List NormalizedItem)
    (db : List ItemKey) : IngestResult × List ItemKey :=
  match source with
  | none => (.sourceNotFound, db)
  | some s =>
      if !s.enabled then (.skippedDisabled, db)
      else
        let out := insertLoop s.id (db, 0) items
        (.completed items.length out.2, out.1)

theorem insertLoop_mono (sourceId : ℕ) (items : List NormalizedItem)
    (db : List ItemKey) (n : ℕ) (k : ItemKey) (hk : k ∈ db) :
    k ∈ (insertLoop sourceId (db, n) items).1 := by
  induction items generalizing db n with
  | nil => exact hk
  | cons item rest ih =>
      unfold insertLoop
      split
      · exact ih db n hk
      · exact ih _ _ (List.mem_append_left _ hk)

theorem insertLoop_covers (sourceId : ℕ) (items : List NormalizedItem)
    (db : List ItemKey) (n : ℕ) (item : NormalizedItem) (hi : item ∈ items) :
    (sourceId, item.externalId) ∈ (insertLoop sourceId (db, n) items).1 := by
  induction items generalizing db n with
  | nil => cases hi
  | cons hd rest ih =>
      unfold insertLoop
      rcases List.mem_cons.mp hi with heq | hmem
      · subst heq
        split
        · exact insertLoop_mono _ _ _ _ _ (by assumption)
        · exact insertLoop_mono _ _ _ _ _
            (List.mem_append_right _ (List.mem_singleton.mpr rfl))
      · split
        · exact ih _ _ hmem
        · exact ih _ _ hmem

theorem insertLoop_noop (sourceId : ℕ) (items : List NormalizedItem)
    (db : List ItemKey) (n : ℕ)
    (h : ∀ item ∈ items, (sourceId, item.externalId) ∈ db) :
    insertLoop sourceId (db, n) items = (db, n) := by
  induction items with
  | nil => rfl
  | cons hd rest ih =>
      unfold insertLoop
      rw [if_pos (h hd (List.mem_cons_self hd rest))]
      exact ih fun item hi => h item (List.mem_cons_of_mem hd hi)

/-- C7: ingestion is idempotent.  A fetched item is inserted exactly when
no row with its `(source_id, external_id)` key exists, and repeating an
ingest run against the unchanged fetched listing inserts zero new items
and leaves the stored keys unchanged. -/
theorem C7_ingest_idempotent (s : SourceRow) (items : List NormalizedItem)
    (db : List ItemKey) (item : NormalizedItem) (hen : s.enabled = true) :
    (insertLoop s.id (db, 0) [item]).2 =
      (if (s.id, item.externalId) ∈ db then 0 else 1) ∧
    ingest (some s) items (ingest (some s) items db).2 =
      (.completed items.length 0, (ingest (some s) items db).2) := by
  constructor
  · unfold insertLoop
    split
    · rfl
    · rfl
  · simp only [ingest, hen, Bool.not_true, Bool.false_eq_true, if_false]
    have hcov : ∀ it ∈ items,
        (s.id, it.externalId) ∈ (insertLoop s.id (db, 0) items).1 :=
      fun it hit => insertLoop_covers s.id items db 0 it hit
    rw [insertLoop_noop s.id items _ 0 hcov]

theorem C7_ingest_idempotent_witness :
    ((insertLoop 1 ([], 0)
        [{ externalId := "a1", url := "u", title := "t", rawText := none,
           publishedAt := none }]).2 =
      (if ((1 : ℕ), "a1") ∈ ([] : List ItemKey) then 0 else 1)) ∧
    ingest (some { id := 1, enabled := true })
        [{ externalId := "a1", url := "u", title := "t", rawText := none,
           publishedAt := none }]
        (ingest (some { id := 1, enabled := true })
          [{ externalId := "a1", url := "u", title := "t", rawText := none,
             publishedAt := none }] []).2 =
      (.completed 1 0,
        (ingest (some { id := 1, enabled := true })
          [{ externalId := "a1", url := "u", title := "t", rawText := none,
             publishedAt := none }] []).2) :=
  C7_ingest_idempotent { id := 1, enabled := true }
    [{ externalId := "a1", url := "u", title := "t", rawText := none,
       publishedAt := none }] []
    { externalId := "a1", url := "u", title := "t", rawText := none,
      publishedAt := none } rfl

/-- Python `str.strip()`: drop leading and trailing whitespace. -/
def pyStrip (s : String) : String :=
  String.mk (((s.data.dropWhile Char.isWhitespace).reverse.dropWhile
    Char.isWhitespace).reverse)

/-- Python `a or b` over optional strings: the empty string is falsy. -/
def orElseNonEmpty (a b : Option String) : Option String :=
  match a with
  | some s => if s = "" then b else some s
  | none => b

/-- One parsed feed entry as `RSSIngester._parse_entry` reads it (the date
chain is abstracted to its parsed result). -/
structure RssEntry where
  entryId : Option String
  guid : Option String
  link : Option String
  title : String
  summary : Option String
  description : Option String
  publishedAt : Option ℤ
deriving Repr, DecidableEq

/-- `RSSIngester._parse_entry`: external id is the first truthy of
id/guid/link, the link and a non-empty stripped title are required, the
body snippet is summary-else-description truncated to 2000 characters. -/
def parseEntry (entry : RssEntry) : Option NormalizedItem :=
  match orElseNonEmpty entry.entryId (orElseNonEmpty entry.guid entry.link) with
  | none => none
  | some externalId =>
      match entry.link with
      | none => none
      | some url =>
          if url = "" then none
          else
            let title := pyStrip entry.title
            if title = "" then none
            else
              let rawText :=
                match orElseNonEmpty entry.summary entry.description with
                | some s => some (s.take 2000)
                | none => none
              some { externalId := externalId, url := url, title := title,
                     rawText := rawText, publishedAt := entry.publishedAt }

/-- `RSSIngester.fetch`: parses the entries of the fetched feed — the slice
`feed.entries[:100]` is a fixed limit of 100, independent of the
`MAX_ITEMS_PER_SOURCE` setting. -/
def rssFetch (entries : List RssEntry) : List NormalizedItem :=
  (entries.take 100).filterMap parseEntry

/-- One HN story record as `HackerNewsIngester._fetch_story` reads it. -/
structure HNStory where
  typeIsStory : Bool
  deleted : Bool
  dead : Bool
  title : String
  url : Option String
  text : Option String
  time : Option ℤ
deriving Repr, DecidableEq

/-- The HN item permalink used when a story has no external URL. -/
def hnItemUrl (storyId : ℕ) : String :=
  "https://news.ycombinator.com/item?id=" ++ toString storyId

/-- `HackerNewsIngester._fetch_story`: keep only live stories of type
"story" with a non-empty title; the URL falls back to the HN permalink. -/
def parseStory (storyId : ℕ) (story : HNStory) : Option NormalizedItem :=
  if !story.typeIsStory then none
  else if story.deleted || story.dead then none
  else
    let title := pyStrip story.title
    if title = "" then none
    else
      let url :=
        match story.url with
        | some u => if u = "" then hnItemUrl storyId else u
        | none => hnItemUrl storyId
      some { externalId := toString storyId, url := url, title := title,
             rawText := story.text, publishedAt := story.time }

/-- `HackerNewsIngester.fetch`: takes at most
`MAX_ITEMS_PER_SOURCE` story ids from the listing
(`response.json()[:self.max_items]`) and fetches each one. -/
def hnFetch (maxItems : ℕ) (storyIds : List ℕ)
    (fetchStory : ℕ → Option HNStory) : List NormalizedItem :=
  (storyIds.take maxItems).filterMap fun sid =>
    (fetchStory sid).bind (parseStory sid)

/-- One Reddit post as `RedditIngester._parse_post` reads it. -/
structure RedditPost where
  postId : Option String
  title : String
  removedByCategory : Bool
  removed : Bool
  url : Option String
  permalink : String
  selftext : Option String
  createdUtc : Option ℤ
deriving Repr, DecidableEq

/-- `RedditIngester._parse_post`: keep posts with an id and a non-empty
stripped title that are not removed; the URL falls back to the permalink;
selftext is truncated to 2000 characters (empty selftext is falsy). -/
def parsePost (post : RedditPost) : Option NormalizedItem :=
  match post.postId with
  | none => none
  | some pid =>
      let title := pyStrip post.title
      if title = "" then none
      else if post.removedByCategory || post.removed then none
      else
        let url :=
          match post.url with
          | some u =>
              if u = "" || u.startsWith "/r/" then
                "https://reddit.com" ++ post.permalink
              else u
          | none => "https://reddit.com" ++ post.permalink
        let rawText :=
          match post.selftext with
          | some s => if s = "" then none else some (s.take 2000)
          | none => none
        some { externalId := pid, url := url, title := title,
               rawText := rawText, publishedAt := post.createdUtc }

/-- `RedditIngester.fetch`: the `limit` request parameter is set to
`MAX_ITEMS_PER_SOURCE`, and every post of the server's response is parsed
— the response itself is not truncated by the ingester. -/
def redditFetch (maxItems : ℕ) (listing : ℕ → List RedditPost) :
    List NormalizedItem :=
  (listing maxItems).filterMap parsePost

/-- A well-formed feed entry that parses successfully. -/
def goodEntry : RssEntry :=
  { entryId := some "id1", guid := none, link := some "http://example.com/a",
    title := "A", summary := none, description := none, publishedAt := none }

/-- C6 counterexample: the feed ingester does not consult
`MAX_ITEMS_PER_SOURCE` at all — its slice is a fixed `[:100]` — so with the
setting configured to 0 a one-entry feed still yields one normalized item,
which a run over an empty store then inserts (1 insert, not 0). -/
theorem C6_rss_ignores_max_items_counterexample :
    (rssFetch [goodEntry]).length = 1 ∧
    ¬((rssFetch [goodEntry]).length ≤ 0) ∧
    ingest (some { id := 1, enabled := true }) (rssFetch [goodEntry]) [] =
      (.completed 1 1, [((1 : ℕ), "id1")]) := by
  have h : rssFetch [goodEntry] =
      [{ externalId := "id1", url := "http://example.com/a", title := "A",
         rawText := none, publishedAt := none }] := by
    rfl
  rw [h]
  refine ⟨rfl, by simp, ?_⟩
  rfl

/-- C6 amended: the HN ingester is bounded by `MAX_ITEMS_PER_SOURCE` and
with the setting at 0 fetches nothing and inserts nothing without error;
the Reddit ingester only forwards the bound to the API (its result is
bounded only when the server honours the `limit` parameter); the feed
ingester is bounded by the fixed constant 100 regardless of the setting. -/
theorem C6_ingester_bounds_amended (maxItems : ℕ) (storyIds : List ℕ)
    (fetchStory : ℕ → Option HNStory) (entries : List RssEntry)
    (listing : ℕ → List RedditPost) (s : SourceRow) (db : List ItemKey)
    (hen : s.enabled = true)
    (hserver : (listing maxItems).length ≤ maxItems) :
    (hnFetch maxItems storyIds fetchStory).length ≤ maxItems ∧
    hnFetch 0 storyIds fetchStory = [] ∧
    ingest (some s) (hnFetch 0 storyIds fetchStory) db =
      (.completed 0 0, db) ∧
    (redditFetch maxItems listing).length ≤ maxItems ∧
    (rssFetch entries).length ≤ 100 := by
  have hhn0 : hnFetch 0 storyIds fetchStory = [] := by
    unfold hnFetch
    rw [List.take_zero, List.filterMap_nil]
  refine ⟨?_, hhn0, ?_, ?_, ?_⟩
  · exact le_trans (List.length_filterMap_le _ _) (List.length_take_le _ _)
  · rw [hhn0]
    simp [ingest, hen, insertLoop]
  · exact le_trans (List.length_filterMap_le _ _) hserver
  · exact le_trans (List.length_filterMap_le _ _) (List.length_take_le _ _)

theorem C6_ingester_bounds_amended_witness :
    (hnFetch 0 [17] (fun _ => none)).length ≤ 0 ∧
    hnFetch 0 [17] (fun _ => none) = [] ∧
    ingest (some { id := 1, enabled := true })
        (hnFetch 0 [17] (fun _ => none)) [] = (.completed 0 0, []) ∧
    (redditFetch 0 (fun _ => [])).length ≤ 0 ∧
    (rssFetch [goodEntry]).length ≤ 100 :=
  C6_ingester_bounds_amended 0 [17] (fun _ => none) [goodEntry]
    (fun _ => []) { id := 1, enabled := true } [] rfl (by simp)

/-! ## Stage progression of `RawItem.status`

`ContentExtractor.extract_all_pending` selects `status='new'`,
`EmbeddingService.embed_all_pending` selects `status='extracted'`,
`DeduplicationService.cluster_all_pending` selects `status='embedded'`,
and `ScoringService.score_all` selects `status='extracted'` (not
`'clustered'`). -/

/-- The values of the `RawItem.status` column. -/
inductive Status
  | new
  | extracted
  | embedded
  | clustered
  | scored
deriving Repr, DecidableEq

/-- A `RawItem` with the presence bits of its side tables
(`ItemEmbedding`, `ClusterMember`, `ItemScore`). -/
structure PipelineItem where
  id : ℕ
  status : Status
  hasEmbedding : Bool
  inCluster : Bool
  hasScore : Bool
deriving Repr, DecidableEq

/-- `ContentExtractor.extract_all_pending` on one item: items with
`status='new'` advance to `'extracted'` (with or without an
`ExtractedContent` row — extraction failure does not block). -/
def extractStep (it : PipelineItem) : PipelineItem :=
  if it.status = .new then { it with status := .extracted } else it

/-- `EmbeddingService.embed_all_pending` on one item: items with
`status='extracted'` and no embedding get one and advance to
`'embedded'` (successful generation). -/
def embedStep (it : PipelineItem) : PipelineItem :=
  if it.status = .extracted ∧ it.hasEmbedding = false then
    { it with hasEmbedding := true, status := .embedded }
  else it

/-- `DeduplicationService.cluster_all_pending` on one item: items with an
embedding, `status='embedded'` and no cluster membership are clustered and
advance to `'clustered'`. -/
def clusterStep (it : PipelineItem) : PipelineItem :=
  if it.status = .embedded ∧ it.hasEmbedding = true ∧ it.inCluster = false then
    { it with inCluster := true, status := .clustered }
  else it

/-- `ScoringService.score_all` on one item: the query selects items with
`status='extracted'` and no `ItemScore` row; `_score_item` inserts the
score and sets `status='scored'` directly. -/
def scoreStep (it : PipelineItem) : PipelineItem :=
  if it.status = .extracted ∧ it.hasScore = false then
    { it with hasScore := true, status := .scored }
  else it

/-- The four periodic stage operations. -/
inductive StageOp
  | extractOp
  | embedOp
  | clusterOp
  | scoreOp
deriving Repr, DecidableEq

/-- Apply one stage operation to one item. -/
def applyStage : StageOp → PipelineItem → PipelineItem
  | .extractOp => extractStep
  | .embedOp => embedStep
  | .clusterOp => clusterStep
  | .scoreOp => scoreStep

/-- The status edges the code actually takes: extraction, embedding and
clustering advance one step, but scoring jumps from `extracted` straight
to `scored`. -/
inductive StatusEdge : Status → Status → Prop
  | extractEdge : StatusEdge .new .extracted
  | embedEdge : StatusEdge .extracted .embedded
  | clusterEdge : StatusEdge .embedded .clustered
  | scoreEdge : StatusEdge .extracted .scored

/-- An item that has been extracted but neither embedded nor clustered. -/
def extractedNoClusterItem : PipelineItem :=
  { id := 1, status := .extracted, hasEmbedding := false, inCluster := false,
    hasScore := false }

/-- The same item after the scoring stage has picked it up. -/
def scoredNoClusterItem : PipelineItem :=
  { id := 1, status := .scored, hasEmbedding := false, inCluster := false,
    hasScore := true }

/-- C2 counterexample: an item with `status='extracted'`, no embedding and
no cluster membership is picked up by the scoring stage and jumps straight
to `'scored'` — it never had status `'clustered'` and has no
`ClusterMember` row, contradicting the claimed
extracted → embedded → clustered → scored order. -/
theorem C2_scored_without_clustered_counterexample :
    scoreStep extractedNoClusterItem = scoredNoClusterItem ∧
    extractedNoClusterItem.status ≠ Status.clustered ∧
    (scoreStep extractedNoClusterItem).inCluster = false := by
  refine ⟨?_, by decide, ?_⟩ <;> rfl

/-- C2 amended: each stage operation either leaves an item unchanged or
advances its status along one edge of
new → extracted, extracted → embedded, embedded → clustered,
extracted → scored; the scoring stage operates on items with status
`'extracted'` (not `'clustered'`) and creates no cluster membership, so an
item can reach `'scored'` without ever having status `'clustered'`. -/
theorem C2_stage_transitions_amended (op : StageOp) (it : PipelineItem) :
    (applyStage op it = it ∨
      StatusEdge it.status (applyStage op it).status) ∧
    (scoreStep it ≠ it → it.status = .extracted) ∧
    (scoreStep it).inCluster = it.inCluster := by
  refine ⟨?_, ?_, ?_⟩
  · cases op
    · show extractStep it = it ∨ StatusEdge it.status (extractStep it).status
      unfold extractStep
      by_cases h : it.status = .new
      · rw [if_pos h, h]
        exact Or.inr StatusEdge.extractEdge
      · rw [if_neg h]
        exact Or.inl rfl
    · show embedStep it = it ∨ StatusEdge it.status (embedStep it).status
      unfold embedStep
      by_cases h : it.status = .extracted ∧ it.hasEmbedding = false
      · rw [if_pos h, h.1]
        exact Or.inr StatusEdge.embedEdge
      · rw [if_neg h]
        exact Or.inl rfl
    · show clusterStep it = it ∨ StatusEdge it.status (clusterStep it).status
      unfold clusterStep
      by_cases h : it.status = .embedded ∧ it.hasEmbedding = true ∧
          it.inCluster = false
      · rw [if_pos h, h.1]
        exact Or.inr StatusEdge.clusterEdge
      · rw [if_neg h]
        exact Or.inl rfl
    · show scoreStep it = it ∨ StatusEdge it.status (scoreStep it).status
      unfold scoreStep
      by_cases h : it.status = .extracted ∧ it.hasScore = false
      · rw [if_pos h, h.1]
        exact Or.inr StatusEdge.scoreEdge
      · rw [if_neg h]
        exact Or.inl rfl
  · intro hne
    unfold scoreStep at hne
    by_cases h : it.status = .extracted ∧ it.hasScore = false
    · exact h.1
    · rw [if_neg h] at hne
      exact absurd rfl hne
  · unfold scoreStep
    by_cases h : it.status = .extracted ∧ it.hasScore = false
    · rw [if_pos h]
    · rw [if_neg h]

/-! ## Clustering (`services/processing/dedup.py`) -/

/-- `ClusterStatus` as the dedup operations use it (`archive_old_clusters`
is outside the claimed operation set). -/
inductive ClStatus
  | open_
  | merged
deriving Repr, DecidableEq

/-- A `Cluster` row. -/
structure ClusterRow where
  id : ℕ
  status : ClStatus
deriving Repr, DecidableEq

/-- A `ClusterMember` row. -/
structure MemberRow where
  clusterId : ℕ
  rawItemId : ℕ
  similarity : ℚ
  isCanonical : Bool
deriving Repr, DecidableEq

/-- The cluster tables, with the id sequence for new clusters. -/
structure ClusterDB where
  clusters : List ClusterRow
  members : List MemberRow
  nextId : ℕ
deriving Repr, DecidableEq

def emptyClusterDB : ClusterDB := { clusters := [], members := [], nextId := 0 }

/-- `DeduplicationService._add_to_cluster`: look up the canonical
membership of the canonical item (`scalar_one_or_none`); reuse its cluster
when there is exactly one, create a new cluster with the canonical item as
canonical member (similarity 1.0) when there is none, and abort on the
`scalar_one_or_none` exception — before any write — when there are two or
more.  The duplicate item is then added as a non-canonical member. -/
def addToCluster (db : ClusterDB) (dupId canonicalId : ℕ) (sim : ℚ) :
    ClusterDB :=
  match db.members.filter
      (fun m => decide (m.rawItemId = canonicalId) && m.isCanonical) with
  | [m] =>
      { db with members := db.members ++
          [{ clusterId := m.clusterId, rawItemId := dupId, similarity := sim,
             isCanonical := false }] }
  | [] =>
      { clusters := db.clusters ++ [{ id := db.nextId, status := .open_ }]
        members := db.members ++
          [{ clusterId := db.nextId, rawItemId := canonicalId,
             similarity := 1, isCanonical := true },
           { clusterId := db.nextId, rawItemId := dupId, similarity := sim,
             isCanonical := false }]
        nextId := db.nextId + 1 }
  | _ => db

/-- New-cluster creation in `cluster_all_pending` / `assign_cluster`: an
open cluster whose only member is the item itself, canonical with
similarity 1.0. -/
def newSingletonCluster (db : ClusterDB) (itemId : ℕ) : ClusterDB :=
  { clusters := db.clusters ++ [{ id := db.nextId, status := .open_ }]
    members := db.members ++
      [{ clusterId := db.nextId, rawItemId := itemId, similarity := 1,
         isCanonical := true }]
    nextId := db.nextId + 1 }

/-- The member `UPDATE` of `merge_clusters`: members of the source cluster
move to the target with `is_canonical = false`. -/
def moveMembers (tgt src : ℕ) (ms : List MemberRow) : List MemberRow :=
  ms.map fun m =>
    if m.clusterId = src then
      { m with clusterId := tgt, isCanonical := false }
    else m

/-- The cluster `UPDATE` of `merge_clusters`: the source cluster's status
becomes `merged`. -/
def markMerged (cid : ℕ) (cs : List ClusterRow) : List ClusterRow :=
  cs.map fun c => if c.id = cid then { c with status := .merged } else c

/-- One iteration of the `merge_clusters` loop. -/
def mergeStep (tgt : ℕ) (db : ClusterDB) (src : ℕ) : ClusterDB :=
  { db with
    members := moveMembers tgt src db.members
    clusters := markMerged src db.clusters }

/-- `DeduplicationService.merge_clusters`: requires at least two ids; the
first cluster is the target and every other cluster's members are moved
into it as non-canonical, the emptied clusters being marked merged. -/
def mergeClusters (db : ClusterDB) (ids : List ℕ) : ClusterDB :=
  if ids.length < 2 then db
  else
    match ids with
    | [] => db
    | tgt :: rest => rest.foldl (mergeStep tgt) db

/-- The clustering operations named by claim C4. -/
inductive ClusterOp
  | exactJoin (dupId canonicalId : ℕ)
  | semanticJoin (dupId canonicalId : ℕ) (sim : ℚ)
  | newCluster (itemId : ℕ)
  | merge (ids : List ℕ)

/-- Apply one clustering operation (exact joins carry similarity 1.0). -/
def applyClusterOp (db : ClusterDB) : ClusterOp → ClusterDB
  | .exactJoin dupId canonicalId => addToCluster db dupId canonicalId 1
  | .semanticJoin dupId canonicalId sim => addToCluster db dupId canonicalId sim
  | .newCluster itemId => newSingletonCluster db itemId
  | .merge ids => mergeClusters db ids

/-- Run a sequence of clustering operations from the empty store. -/
def runClusterOps (ops : List ClusterOp) : ClusterDB :=
  ops.foldl applyClusterOp emptyClusterDB

/-- Number of canonical members of cluster `cid` in a member table. -/
def ccount (ms : List MemberRow) (cid : ℕ) : ℕ :=
  ms.countP fun m => decide (m.clusterId = cid) && m.isCanonical

/-- Number of canonical members of cluster `cid`. -/
def canonicalCount (db : ClusterDB) (cid : ℕ) : ℕ := ccount db.members cid

/-- The inductive invariant of the clustering operations. -/
def ClusterInv (db : ClusterDB) : Prop :=
  (∀ c ∈ db.clusters,
      (c.status = .open_ → canonicalCount db c.id = 1) ∧
      (c.status = .merged → canonicalCount db c.id = 0)) ∧
  (∀ m ∈ db.members, m.isCanonical = true →
      m.similarity = 1 ∧ m.clusterId < db.nextId) ∧
  (∀ c ∈ db.clusters, c.id < db.nextId)

theorem ccount_append (ms ns : List MemberRow) (cid : ℕ) :
    ccount (ms ++ ns) cid = ccount ms cid + ccount ns cid :=
  List.countP_append _ _ _

theorem ccount_nonCanonical (m : MemberRow) (hm : m.isCanonical = false)
    (cid : ℕ) : ccount [m] cid = 0 := by
  simp [ccount, List.countP_cons, hm]

theorem ccount_canonical_ne (m : MemberRow) (cid : ℕ)
    (h : m.clusterId ≠ cid) : ccount [m] cid = 0 := by
  simp [ccount, List.countP_cons, h]

theorem ccount_canonical_self (m : MemberRow) (hm : m.isCanonical = true) :
    ccount [m] m.clusterId = 1 := by
  simp [ccount, List.countP_cons, hm]

theorem ccount_eq_zero_of_lt (ms : List MemberRow) (bound : ℕ)
    (h : ∀ m ∈ ms, m.isCanonical = true → m.clusterId < bound) :
    ccount ms bound = 0 := by
  rw [ccount, List.countP_eq_zero]
  intro m hm
  simp only [Bool.and_eq_true, decide_eq_true_eq, not_and]
  intro hc hcan
  exact absurd hc (Nat.ne_of_lt (h m hm hcan))

theorem moveMembers_cons (tgt src : ℕ) (m : MemberRow) (ms : List MemberRow) :
    moveMembers tgt src (m :: ms) =
      (if m.clusterId = src then
        { m with clusterId := tgt, isCanonical := false }
      else m) :: moveMembers tgt src ms := by
  simp [moveMembers]

theorem ccount_cons_split (m : MemberRow) (ms : List MemberRow) (cid : ℕ) :
    ccount (m :: ms) cid = ccount [m] cid + ccount ms cid := by
  rw [show (m :: ms) = [m] ++ ms from rfl, ccount_append]

theorem ccount_moveMembers (tgt src cid : ℕ) (ms : List MemberRow) :
    ccount (moveMembers tgt src ms) cid =
      if cid = src then 0 else ccount ms cid := by
  induction ms with
  | nil => simp [moveMembers, ccount]
  | cons m ms ih =>
      rw [moveMembers_cons]
      by_cases hm : m.clusterId = src
      · rw [if_pos hm, ccount_cons_split, ccount_nonCanonical _ rfl, ih,
          Nat.zero_add]
        by_cases hc : cid = src
        · rw [if_pos hc, if_pos hc]
        · rw [if_neg hc, if_neg hc, ccount_cons_split,
            ccount_canonical_ne m cid (by rw [hm]; exact fun h => hc h.symm),
            Nat.zero_add]
      · rw [if_neg hm, ccount_cons_split, ih]
        by_cases hc : cid = src
        · rw [if_pos hc, if_pos hc, Nat.add_zero,
            ccount_canonical_ne m cid (by rw [hc]; exact hm)]
        · rw [if_neg hc, if_neg hc, ccount_cons_split m ms cid]

theorem inv_addToCluster (db : ClusterDB) (dupId canonicalId : ℕ) (sim : ℚ)
    (h : ClusterInv db) : ClusterInv (addToCluster db dupId canonicalId sim) := by
  obtain ⟨h1, h2, h3⟩ := h
  unfold addToCluster
  cases hfilter : db.members.filter
      (fun m => decide (m.rawItemId = canonicalId) && m.isCanonical) with
  | nil =>
      refine ⟨?_, ?_, ?_⟩
      · intro c hc
        replace hc : c ∈ db.clusters ++ [(⟨db.nextId, .open_⟩ : ClusterRow)] := hc
        rcases List.mem_append.mp hc with hold | hnew
        · have hlt := h3 c hold
          have hne : db.nextId ≠ c.id := Nat.ne_of_gt hlt
          have hcnt : ccount (db.members ++
              [(⟨db.nextId, canonicalId, 1, true⟩ : MemberRow),
                (⟨db.nextId, dupId, sim, false⟩ : MemberRow)]) c.id =
              ccount db.members c.id := by
            rw [ccount_append, ccount_cons_split, ccount_canonical_ne _ c.id hne,
              ccount_nonCanonical _ rfl]
            omega
          show (c.status = .open_ → ccount _ c.id = 1) ∧
            (c.status = .merged → ccount _ c.id = 0)
          rw [hcnt]
          exact h1 c hold
        · have hc' : c = (⟨db.nextId, .open_⟩ : ClusterRow) := by
            simpa using hnew
          subst hc'
          constructor
          · intro _
            show ccount (db.members ++
              [(⟨db.nextId, canonicalId, 1, true⟩ : MemberRow),
                (⟨db.nextId, dupId, sim, false⟩ : MemberRow)]) db.nextId = 1
            rw [ccount_append, ccount_eq_zero_of_lt db.members db.nextId
                (fun m hm hcan => (h2 m hm hcan).2)]
            simp [ccount, List.countP_cons]
          · intro hmerged
            exact absurd hmerged (by simp)
      · intro m hm
        replace hm : m ∈ db.members ++
            [(⟨db.nextId, canonicalId, 1, true⟩ : MemberRow),
              (⟨db.nextId, dupId, sim, false⟩ : MemberRow)] := hm
        show m.isCanonical = true → m.similarity = 1 ∧ m.clusterId < db.nextId + 1
        rcases List.mem_append.mp hm with hold | hnew
        · intro hcan
          exact ⟨(h2 m hold hcan).1, Nat.lt_succ_of_lt (h2 m hold hcan).2⟩
        · rcases List.mem_cons.mp hnew with heq | htail
          · subst heq
            intro _
            exact ⟨rfl, Nat.lt_succ_self _⟩
          · have heq : m = (⟨db.nextId, dupId, sim, false⟩ : MemberRow) :=
              List.mem_singleton.mp htail
            subst heq
            intro hcan
            exact absurd hcan (by simp)
      · intro c hc
        replace hc : c ∈ db.clusters ++ [(⟨db.nextId, .open_⟩ : ClusterRow)] := hc
        show c.id < db.nextId + 1
        rcases List.mem_append.mp hc with hold | hnew
        · exact Nat.lt_succ_of_lt (h3 c hold)
        · have hc' : c = (⟨db.nextId, .open_⟩ : ClusterRow) := by
            simpa using hnew
          subst hc'
          exact Nat.lt_succ_self _
  | cons m rest =>
      cases rest with
      | nil =>
          refine ⟨?_, ?_, ?_⟩
          · intro c hc
            replace hc : c ∈ db.clusters := hc
            have hcnt : ccount (db.members ++
                [(⟨m.clusterId, dupId, sim, false⟩ : MemberRow)]) c.id =
                ccount db.members c.id := by
              rw [ccount_append, ccount_nonCanonical _ rfl]
              omega
            show (c.status = .open_ → ccount _ c.id = 1) ∧
              (c.status = .merged → ccount _ c.id = 0)
            rw [hcnt]
            exact h1 c hc
          · intro m' hm'
            replace hm' : m' ∈ db.members ++
                [(⟨m.clusterId, dupId, sim, false⟩ : MemberRow)] := hm'
            show m'.isCanonical = true → m'.similarity = 1 ∧ m'.clusterId < db.nextId
            rcases List.mem_append.mp hm' with hold | hnew
            · intro hcan
              exact h2 m' hold hcan
            · have heq : m' = (⟨m.clusterId, dupId, sim, false⟩ : MemberRow) :=
                List.mem_singleton.mp hnew
              subst heq
              intro hcan
              exact absurd hcan (by simp)
          · exact h3
      | cons m2 rest2 => exact ⟨h1, h2, h3⟩

theorem inv_newSingletonCluster (db : ClusterDB) (itemId : ℕ)
    (h : ClusterInv db) : ClusterInv (newSingletonCluster db itemId) := by
  obtain ⟨h1, h2, h3⟩ := h
  refine ⟨?_, ?_, ?_⟩
  · intro c hc
    replace hc : c ∈ db.clusters ++ [(⟨db.nextId, .open_⟩ : ClusterRow)] := hc
    rcases List.mem_append.mp hc with hold | hnew
    · have hlt := h3 c hold
      have hcnt : ccount (db.members ++
          [(⟨db.nextId, itemId, 1, true⟩ : MemberRow)]) c.id =
          ccount db.members c.id := by
        rw [ccount_append, ccount_canonical_ne _ c.id (Nat.ne_of_gt hlt)]
        omega
      show (c.status = .open_ → ccount (db.members ++
            [(⟨db.nextId, itemId, 1, true⟩ : MemberRow)]) c.id = 1) ∧
        (c.status = .merged → ccount (db.members ++
            [(⟨db.nextId, itemId, 1, true⟩ : MemberRow)]) c.id = 0)
      rw [hcnt]
      exact h1 c hold
    · have hc' : c = (⟨db.nextId, .open_⟩ : ClusterRow) := by
        simpa using hnew
      subst hc'
      constructor
      · intro _
        show ccount (db.members ++
          [(⟨db.nextId, itemId, 1, true⟩ : MemberRow)]) db.nextId = 1
        rw [ccount_append, ccount_eq_zero_of_lt db.members db.nextId
          (fun m hm hcan => (h2 m hm hcan).2)]
        simp [ccount, List.countP_cons]
      · intro hmerged
        exact absurd hmerged (by simp)
  · intro m hm
    replace hm : m ∈ db.members ++
        [(⟨db.nextId, itemId, 1, true⟩ : MemberRow)] := hm
    show m.isCanonical = true → m.similarity = 1 ∧ m.clusterId < db.nextId + 1
    rcases List.mem_append.mp hm with hold | hnew
    · intro hcan
      exact ⟨(h2 m hold hcan).1, Nat.lt_succ_of_lt (h2 m hold hcan).2⟩
    · have heq : m = (⟨db.nextId, itemId, 1, true⟩ : MemberRow) :=
        List.mem_singleton.mp hnew
      subst heq
      intro _
      exact ⟨rfl, Nat.lt_succ_self _⟩
  · intro c hc
    replace hc : c ∈ db.clusters ++ [(⟨db.nextId, .open_⟩ : ClusterRow)] := hc
    show c.id < db.nextId + 1
    rcases List.mem_append.mp hc with hold | hnew
    · exact Nat.lt_succ_of_lt (h3 c hold)
    · have hc' : c = (⟨db.nextId, .open_⟩ : ClusterRow) := by
        simpa using hnew
      subst hc'
      exact Nat.lt_succ_self _

theorem inv_mergeStep (tgt src : ℕ) (db : ClusterDB) (h : ClusterInv db) :
    ClusterInv (mergeStep tgt db src) := by
  obtain ⟨h1, h2, h3⟩ := h
  refine ⟨?_, ?_, ?_⟩
  · intro c hc
    obtain ⟨c0, hc0, hceq⟩ := List.mem_map.mp hc
    by_cases hid : c0.id = src
    · rw [if_pos hid] at hceq
      subst hceq
      constructor
      · intro hopen
        exact absurd hopen (by simp)
      · intro _
        show ccount (moveMembers tgt src db.members) c0.id = 0
        rw [ccount_moveMembers, if_pos hid]
    · rw [if_neg hid] at hceq
      subst hceq
      have hcnt : canonicalCount (mergeStep tgt db src) c0.id =
          canonicalCount db c0.id := by
        show ccount (moveMembers tgt src db.members) c0.id = _
        rw [ccount_moveMembers, if_neg hid]
        rfl
      exact ⟨fun hopen => by rw [hcnt]; exact (h1 c0 hc0).1 hopen,
        fun hmerged => by rw [hcnt]; exact (h1 c0 hc0).2 hmerged⟩
  · intro m hm
    obtain ⟨m0, hm0, hmeq⟩ := List.mem_map.mp hm
    by_cases hid : m0.clusterId = src
    · rw [if_pos hid] at hmeq
      subst hmeq
      intro hcan
      exact absurd hcan (by simp)
    · rw [if_neg hid] at hmeq
      subst hmeq
      exact h2 m0 hm0
  · intro c hc
    obtain ⟨c0, hc0, hceq⟩ := List.mem_map.mp hc
    by_cases hid : c0.id = src
    · rw [if_pos hid] at hceq
      subst hceq
      exact h3 c0 hc0
    · rw [if_neg hid] at hceq
      subst hceq
      exact h3 c0 hc0

theorem inv_mergeFold (tgt : ℕ) (srcs : List ℕ) (db : ClusterDB)
    (h : ClusterInv db) : ClusterInv (srcs.foldl (mergeStep tgt) db) := by
  induction srcs generalizing db with
  | nil => exact h
  | cons src rest ih => exact ih _ (inv_mergeStep tgt src db h)

theorem inv_mergeClusters (db : ClusterDB) (ids : List ℕ)
    (h : ClusterInv db) : ClusterInv (mergeClusters db ids) := by
  unfold mergeClusters
  split
  · exact h
  · cases ids with
    | nil => exact h
    | cons tgt rest => exact inv_mergeFold tgt rest db h

theorem inv_applyClusterOp (db : ClusterDB) (op : ClusterOp)
    (h : ClusterInv db) : ClusterInv (applyClusterOp db op) := by
  cases op with
  | exactJoin dupId canonicalId => exact inv_addToCluster db dupId canonicalId 1 h
  | semanticJoin dupId canonicalId sim => exact inv_addToCluster db dupId canonicalId sim h
  | newCluster itemId => exact inv_newSingletonCluster db itemId h
  | merge ids => exact inv_mergeClusters db ids h

theorem inv_foldClusterOps (ops : List ClusterOp) (db : ClusterDB)
    (h : ClusterInv db) : ClusterInv (ops.foldl applyClusterOp db) := by
  induction ops generalizing db with
  | nil => exact h
  | cons op rest ih => exact ih _ (inv_applyClusterOp db op h)

theorem inv_runClusterOps (ops : List ClusterOp) :
    ClusterInv (runClusterOps ops) := by
  refine inv_foldClusterOps ops emptyClusterDB ⟨?_, ?_, ?_⟩ <;>
    intro x hx <;> cases hx

/-- C4 counterexample: create two singleton clusters and merge them.
`merge_clusters` moves the members of cluster 1 into cluster 0 with
`is_canonical = false` and marks cluster 1 merged, so cluster 1 — still a
`Cluster` row — is left with **zero** canonical members, not exactly
one. -/
theorem C4_merged_cluster_without_canonical_counterexample :
    (⟨1, .merged⟩ : ClusterRow) ∈
      (runClusterOps [.newCluster 1, .newCluster 2, .merge [0, 1]]).clusters ∧
    canonicalCount
      (runClusterOps [.newCluster 1, .newCluster 2, .merge [0, 1]]) 1 = 0 := by
  exact ⟨by decide, rfl⟩

/-- C4 amended: after any sequence of clustering operations from the empty
store, every cluster whose status is still `open` has exactly one
canonical member, a cluster that `merge_clusters` has marked `merged` has
none, and every canonical member's similarity equals 1.0. -/
theorem C4_canonical_member_invariant_amended (ops : List ClusterOp)
    (c : ClusterRow) (m : MemberRow)
    (hc : c ∈ (runClusterOps ops).clusters)
    (hm : m ∈ (runClusterOps ops).members) :
    (c.status = .open_ → canonicalCount (runClusterOps ops) c.id = 1) ∧
    (c.status = .merged → canonicalCount (runClusterOps ops) c.id = 0) ∧
    (m.isCanonical = true → m.similarity = 1) := by
  have h := inv_runClusterOps ops
  exact ⟨(h.1 c hc).1, (h.1 c hc).2, fun hcan => (h.2.1 m hm hcan).1⟩

theorem C4_canonical_member_invariant_amended_witness :
    ((⟨0, .open_⟩ : ClusterRow).status = .open_ →
      canonicalCount (runClusterOps [.newCluster 5]) (⟨0, .open_⟩ : ClusterRow).id = 1) ∧
    ((⟨0, .open_⟩ : ClusterRow).status = .merged →
      canonicalCount (runClusterOps [.newCluster 5]) (⟨0, .open_⟩ : ClusterRow).id = 0) ∧
    ((⟨0, 5, 1, true⟩ : MemberRow).isCanonical = true →
      (⟨0, 5, 1, true⟩ : MemberRow).similarity = 1) :=
  C4_canonical_member_invariant_amended [.newCluster 5] ⟨0, .open_⟩
    ⟨0, 5, 1, true⟩ (List.mem_singleton.mpr rfl) (List.mem_singleton.mpr rfl)

/-! ## Semantic duplicate pass (`check_semantic_duplicate`) -/

/-- One row of the nearest-neighbor query of `check_semantic_duplicate`,
together with the neighbor's `published_at` (read from the joined
`raw_items` row; the claim's tie-break is about it). -/
structure Neighbor where
  rawItemId : ℕ
  similarity : ℚ
  publishedAt : ℤ
deriving Repr, DecidableEq

/-- What `ORDER BY similarity DESC` guarantees about the query result:
adjacent similarities are non-increasing.  Nothing orders exact ties. -/
def simSortedDesc (l : List Neighbor) : Prop :=
  l.Chain' fun a b => b.similarity ≤ a.similarity

/-- `check_semantic_duplicate` after the query: if any row came back, take
`similar_items[0]` and join its cluster with the returned similarity;
`published_at` is never consulted. -/
def checkSemanticDuplicate (db : ClusterDB) (itemId : ℕ)
    (neighbors : List Neighbor) : ClusterDB × Bool :=
  match neighbors with
  | [] => (db, false)
  | best :: _ => (addToCluster db itemId best.rawItemId best.similarity, true)

theorem simSortedDesc_head (best : Neighbor) (rest : List Neighbor)
    (h : simSortedDesc (best :: rest)) :
    ∀ n ∈ best :: rest, n.similarity ≤ best.similarity := by
  induction rest generalizing best with
  | nil =>
      intro n hn
      have : n = best := List.mem_singleton.mp hn
      subst this
      exact le_refl _
  | cons b2 bs ih =>
      intro n hn
      rcases List.mem_cons.mp hn with heq | hn2
      · subst heq
        exact le_refl _
      · have h12 : b2.similarity ≤ best.similarity := (List.chain'_cons.mp h).1
        have htail : simSortedDesc (b2 :: bs) := (List.chain'_cons.mp h).2
        exact le_trans (ih b2 htail n hn2) h12

/-- The store of the C5 counterexample: item 10 canonical of cluster 0,
item 20 canonical of cluster 1. -/
def twoClusterDB : ClusterDB := runClusterOps [.newCluster 10, .newCluster 20]

/-- The tied neighbor list of the C5 counterexample: both candidates have
similarity 0.92, and candidate 20 has the older `published_at`. -/
def tiedNeighbors : List Neighbor :=
  [⟨10, 92 / 100, 200⟩, ⟨20, 92 / 100, 100⟩]

/-- C5 counterexample: with two candidates tied at similarity 0.92 —
candidate 20 published earlier than candidate 10 — the code joins the
cluster of `similar_items[0]`, here candidate 10's cluster 0, not the
cluster of the oldest tied candidate (20, cluster 1): `published_at`
plays no role in the selection. -/
theorem C5_tie_ignores_published_at_counterexample :
    simSortedDesc tiedNeighbors ∧
    (⟨20, 92 / 100, 100⟩ : Neighbor).similarity =
      (⟨10, 92 / 100, 200⟩ : Neighbor).similarity ∧
    (⟨20, 92 / 100, 100⟩ : Neighbor).publishedAt <
      (⟨10, 92 / 100, 200⟩ : Neighbor).publishedAt ∧
    checkSemanticDuplicate twoClusterDB 5 tiedNeighbors =
      ({ clusters := [⟨0, .open_⟩, ⟨1, .open_⟩]
         members := [⟨0, 10, 1, true⟩, ⟨1, 20, 1, true⟩,
           ⟨0, 5, 92 / 100, false⟩]
         nextId := 2 }, true) := by
  refine ⟨?_, rfl, by decide, rfl⟩
  simp [simSortedDesc, tiedNeighbors, List.chain'_cons]

/-- C5 amended: when the neighbor query returns any candidates, the item
joins the cluster of the **first returned row** (which the
similarity-descending order makes a candidate of maximal similarity); an
exact tie is resolved by the result order alone — the code applies no
`published_at` tie-break. -/
theorem C5_semantic_best_match_amended (db : ClusterDB) (itemId : ℕ)
    (best : Neighbor) (rest : List Neighbor) (n : Neighbor)
    (hs : simSortedDesc (best :: rest)) (hn : n ∈ best :: rest) :
    checkSemanticDuplicate db itemId (best :: rest) =
      (addToCluster db itemId best.rawItemId best.similarity, true) ∧
    n.similarity ≤ best.similarity :=
  ⟨rfl, simSortedDesc_head best rest hs n hn⟩

theorem C5_semantic_best_match_amended_witness :
    checkSemanticDuplicate emptyClusterDB 5 tiedNeighbors =
      (addToCluster emptyClusterDB 5
        (⟨10, 92 / 100, 200⟩ : Neighbor).rawItemId
        (⟨10, 92 / 100, 200⟩ : Neighbor).similarity, true) ∧
    (⟨20, 92 / 100, 100⟩ : Neighbor).similarity ≤
      (⟨10, 92 / 100, 200⟩ : Neighbor).similarity :=
  C5_semantic_best_match_amended emptyClusterDB 5 ⟨10, 92 / 100, 200⟩
    [⟨20, 92 / 100, 100⟩] ⟨20, 92 / 100, 100⟩
    (by simp [simSortedDesc, List.chain'_cons])
    (List.mem_cons_of_mem _ (List.mem_singleton.mpr rfl))

/-! ## Embedding generation (`services/processing/embeddings.py`) -/

/-- The NumPy global generator as `_generate_dummy_embedding` uses it: an
underlying draw stream with the current position.  The source calls
`np.random.randn` without ever seeding, so every call reads the
process-global state and advances it. -/
structure NumpyRng where
  stream : ℕ → ℚ
  pos : ℕ

/-- `EmbeddingService.dimension`. -/
def embeddingDimension : ℕ := 1536

/-- `np.random.randn(dim)`: the next `dim` draws, advancing the global
position. -/
def randn (dim : ℕ) (g : NumpyRng) : List ℚ × NumpyRng :=
  ((List.range dim).map fun i => g.stream (g.pos + i),
    { g with pos := g.pos + dim })

/-- `EmbeddingService._generate_dummy_embedding`:
`np.random.randn(self.dimension)` as a list. -/
def generateDummyEmbedding (g : NumpyRng) : List ℚ × NumpyRng :=
  randn embeddingDimension g

/-- `EmbeddingService._generate_embedding`: with no `OPENAI_API_KEY` the
dummy generator is used (and the item text is not consulted); with a key
the external provider's response decides the result and the local
generator is untouched. -/
def generateEmbedding (openaiKey : Option String) (text : String)
    (externalResult : Option (List ℚ)) (g : NumpyRng) :
    Option (List ℚ) × NumpyRng :=
  match openaiKey with
  | none => ((generateDummyEmbedding g).1, (generateDummyEmbedding g).2)
  | some _ => (externalResult, g)

theorem map_range_head (n : ℕ) (hn : 0 < n) (f : ℕ → ℚ) :
    ((List.range n).map f).head? = some (f 0) := by
  cases n with
  | zero => omega
  | succ m =>
      rw [List.range_succ_eq_map]
      simp

set_option maxRecDepth 4000 in
theorem dummyRuns_differ (g : NumpyRng) (t1 t2 : String)
    (hdiff : g.stream g.pos ≠ g.stream (g.pos + embeddingDimension)) :
    (generateEmbedding none t1 none g).1 ≠
      (generateEmbedding none t2 none (generateEmbedding none t1 none g).2).1 := by
  intro heq
  have h1 : (generateEmbedding none t1 none g).1 =
      some ((List.range embeddingDimension).map fun i =>
        g.stream (g.pos + i)) := rfl
  have h2 : (generateEmbedding none t2 none
        (generateEmbedding none t1 none g).2).1 =
      some ((List.range embeddingDimension).map fun i =>
        g.stream (g.pos + embeddingDimension + i)) := rfl
  rw [h1, h2] at heq
  have hl := congrArg List.head? (Option.some.inj heq)
  rw [map_range_head _ (by norm_num [embeddingDimension]),
    map_range_head _ (by norm_num [embeddingDimension])] at hl
  simp only [Nat.add_zero] at hl
  exact hdiff (Option.some.inj hl)

/-- C9 counterexample: with no embedding credential configured, two runs
of embedding generation over the **same** item text do not yield the same
vector — each run draws the next 1536 values of the never-seeded global
generator, so the second run reads a disjoint segment of the stream
(here a stream whose draws differ, as real RNG draws do). -/
theorem C9_dummy_embedding_not_deterministic_counterexample :
    (generateEmbedding none "same text" none ⟨fun n => (n : ℚ), 0⟩).1 ≠
      (generateEmbedding none "same text" none
        (generateEmbedding none "same text" none ⟨fun n => (n : ℚ), 0⟩).2).1 :=
  dummyRuns_differ ⟨fun n => (n : ℚ), 0⟩ "same text" "same text"
    (by norm_num [embeddingDimension])

/-- C9 amended: the no-credential embedding path is a function of the
global RNG state alone — the item text is not consulted — and each call
advances the state by 1536 draws, so two successive runs read disjoint
stream segments and differ whenever the stream does (the vector is
**not** a deterministic function of the item text). -/
theorem C9_dummy_embedding_state_dependence_amended (g : NumpyRng)
    (t1 t2 : String)
    (hdiff : g.stream g.pos ≠ g.stream (g.pos + embeddingDimension)) :
    (generateEmbedding none t1 none g).1 =
      (generateEmbedding none t2 none g).1 ∧
    (generateEmbedding none t1 none g).2.pos = g.pos + embeddingDimension ∧
    (generateEmbedding none t1 none g).2.stream = g.stream ∧
    (generateEmbedding none t1 none g).1 ≠
      (generateEmbedding none t2 none
        (generateEmbedding none t1 none g).2).1 :=
  ⟨rfl, rfl, rfl, dummyRuns_differ g t1 t2 hdiff⟩

theorem C9_dummy_embedding_state_dependence_amended_witness :
    (generateEmbedding none "a" none ⟨fun n => (n : ℚ), 0⟩).1 =
      (generateEmbedding none "b" none ⟨fun n => (n : ℚ), 0⟩).1 ∧
    (generateEmbedding none "a" none ⟨fun n => (n : ℚ), 0⟩).2.pos =
      0 + embeddingDimension ∧
    (generateEmbedding none "a" none ⟨fun n => (n : ℚ), 0⟩).2.stream =
      (fun n : ℕ => (n : ℚ)) ∧
    (generateEmbedding none "a" none ⟨fun n => (n : ℚ), 0⟩).1 ≠
      (generateEmbedding none "b" none
        (generateEmbedding none "a" none ⟨fun n => (n : ℚ), 0⟩).2).1 :=
  C9_dummy_embedding_state_dependence_amended ⟨fun n => (n : ℚ), 0⟩ "a" "b"
    (by norm_num [embeddingDimension])

end NewsBot
